import Mathlib

/-!
Verification development for the Apteryx hierarchical datastore.

The repository ships `src/config.c` (the self-configuration surface) and
`src/test.c` (the unit tests).  The operation engine itself (path tree,
callback registry, dispatch) is not part of the sources, so those parts are
modelled from the specification, with the unit tests in `src/test.c` pinning
the observable behaviour wherever they exercise it.  `src/config.c` is
embedded directly.
-/

/-- A path is the list of its slash-separated segments
(spec section 3: "A string of the form /seg1/seg2/...").  -/
abbrev Pth := List String

/-- Values are byte strings; the empty string is reserved to mean delete
(spec section 6: "A value of the empty byte-string is reserved to mean
delete").  -/
abbrev Value := String

/-- Modelled from the spec: the path tree C1 (not in src/).  A node exists
iff it has a value or a value-bearing descendant (spec section 3), so the
tree is represented by its value-bearing leaves: an association list from
path to (value, last-modified timestamp in microseconds).  -/
abbrev DB := List (Pth × Value × Nat)

/-- Generic association-list lookup (first entry with the given key).  -/
def alookup {α β : Type} [DecidableEq α] (l : List (α × β)) (k : α) : Option β :=
  match l with
  | [] => none
  | e :: rest => if e.1 = k then some e.2 else alookup rest k

/-- Generic association-list update: replaces the first entry with the given
key, or appends a new entry.  -/
def aset {α β : Type} [DecidableEq α] (l : List (α × β)) (k : α) (v : β) : List (α × β) :=
  match l with
  | [] => [(k, v)]
  | e :: rest => if e.1 = k then (k, v) :: rest else e :: aset rest k v

/-- Generic association-list removal of every entry with the given key.  -/
def aerase {α β : Type} [DecidableEq α] (l : List (α × β)) (k : α) : List (α × β) :=
  match l with
  | [] => []
  | e :: rest => if e.1 = k then aerase rest k else e :: aerase rest k

/-- `pathBelow r q` holds when `r` is an ancestor-or-self of `q`, i.e. the
segments of `r` are an initial run of the segments of `q`.  -/
def pathBelow : Pth → Pth → Bool
  | [], _ => true
  | _ :: _, [] => false
  | a :: ps, b :: qs => decide (a = b) && pathBelow ps qs

/-- Modelled from the spec: C1 `get(path)` — exact lookup
(spec section 4.1).  -/
def dbGet (db : DB) (p : Pth) : Option Value :=
  (alookup db p).map (fun e => e.1)

/-- Modelled from the spec: C1 `add(path, value, timestamp)` — sets the leaf
value and stamps it; a write of the empty byte-string deletes the leaf
(spec section 4.1).  -/
def dbAdd (db : DB) (p : Pth) (v : Value) (t : Nat) : DB :=
  if v = "" then aerase db p else aset db p (v, t)

/-- Modelled from the spec: C1 `prune(path)` — removes the subtree rooted at
`path` and yields the `(path, prior_value)` pairs pruned for watcher
delivery (spec section 4.1).  -/
def dbPrune (db : DB) (p : Pth) : DB × List (Pth × Value) :=
  (db.filter (fun e => !(pathBelow p e.1)),
   (db.filter (fun e => pathBelow p e.1)).map (fun e => (e.1, e.2.1)))

/-- Modelled from the spec: C1 `timestamp(path)` — for any path, the
most-recent stamp in its subtree; 0 when nothing at or below the path has
ever been written (spec section 4.1, and section 4.4.2 reading an absent
path's timestamp as 0).  -/
def dbTimestamp (db : DB) (p : Pth) : Nat :=
  (db.filter (fun e => pathBelow p e.1)).foldr (fun e m => max e.2.2 m) 0

/-- Modelled from the spec: wildcard pattern matching over paths.  `*` as a
whole segment matches one segment, and a trailing `*` segment matches
everything below (spec section 3).  -/
def patMatch : Pth → Pth → Bool
  | [], [] => true
  | ["*"], _ :: _ => true
  | [], _ :: _ => false
  | _ :: _, [] => false
  | a :: ps, b :: qs => (decide (a = b) || decide (a = "*")) && patMatch ps qs

/- ## Association-list lemmas -/

theorem alookup_aset_self {α β : Type} [DecidableEq α] (l : List (α × β)) (k : α) (v : β) :
    alookup (aset l k v) k = some v := by
  induction l with
  | nil => simp [aset, alookup]
  | cons e rest ih =>
    by_cases h : e.1 = k
    · simp [aset, h, alookup]
    · simp [aset, h, alookup, ih]

theorem alookup_aset_ne {α β : Type} [DecidableEq α] (l : List (α × β)) (k k' : α) (v : β)
    (h : k' ≠ k) : alookup (aset l k v) k' = alookup l k' := by
  have h' : ¬ (k = k') := fun hh => h hh.symm
  induction l with
  | nil => simp [aset, alookup, h']
  | cons e rest ih =>
    by_cases he : e.1 = k
    · subst he
      simp [aset, alookup, h']
    · simp [aset, he, alookup, ih]

theorem alookup_aerase_self {α β : Type} [DecidableEq α] (l : List (α × β)) (k : α) :
    alookup (aerase l k) k = none := by
  induction l with
  | nil => simp [aerase, alookup]
  | cons e rest ih =>
    by_cases h : e.1 = k
    · simp [aerase, h, ih]
    · simp [aerase, h, alookup, ih]

theorem alookup_aerase_ne {α β : Type} [DecidableEq α] (l : List (α × β)) (k k' : α)
    (h : k' ≠ k) : alookup (aerase l k) k' = alookup l k' := by
  induction l with
  | nil => simp [aerase, alookup]
  | cons e rest ih =>
    by_cases he : e.1 = k
    · have h' : ¬ (k = k') := fun hh => h hh.symm
      simp [aerase, he, alookup, h', ih]
    · simp [aerase, he, alookup, ih]

theorem alookup_filter_notBelow (db : DB) (r p : Pth) (h : pathBelow r p = false) :
    alookup (db.filter (fun e => !(pathBelow r e.1))) p = alookup db p := by
  induction db with
  | nil => simp [alookup]
  | cons e rest ih =>
    by_cases he : e.1 = p
    · subst he
      simp [List.filter_cons, h, alookup]
    · cases hb : pathBelow r e.1 with
      | true => simp [List.filter_cons, hb, alookup, he, ih]
      | false => simp [List.filter_cons, hb, alookup, he, ih]

/- ## Callbacks and the operation engine (C4/C5), modelled from the spec -/

/-- Modelled from the spec: a validator callback receives the path and the
value being written (the empty string standing for delete) and returns a
status; non-zero vetoes the mutation (spec section 4.4.1).  -/
abbrev Validator := Pth → Value → Int

/-- Modelled from the spec: a provider callback synthesizes a value on read,
returning a freshly allocated value or none (spec section 4.4.4).  -/
abbrev Provider := Pth → Option Value

/-- Modelled from the spec: an indexer enumerates dynamic children of a
prefix (spec section 4.4.5).  -/
abbrev Indexer := Pth → List Pth

/-- Modelled from the spec: a refresher repopulates a stale subtree by
setting into C1 synchronously and returns the TTL in microseconds for which
its writes may be reused (spec sections 4.3 and 8 scenario 4).  -/
abbrev Refresher := Pth → DB → DB × Nat

/-- Modelled from the spec and pinned by src/test.c: a callback registration
is prepended to its kind's list, so dispatch considers the most recent
registration first (`test_provide_replace_handler` and
`test_index_replace_handler` observe the later registration winning).  -/
def cbRegister {α : Type} (l : List (Pth × α)) (pat : Pth) (f : α) : List (Pth × α) :=
  (pat, f) :: l

/-- Error numbers used by the engine (errno values; the wire carries their
negations, spec section 6).  -/
def EPERM : Int := 1

/-- errno EBUSY, reported negated on a CAS timestamp conflict.  -/
def EBUSY : Int := 16

/-- Modelled from the spec: run every matching validator for one leaf in
registration-list order; the first non-zero return aborts with that value
(spec section 4.4.1 step 1).  -/
def validateLeaf (vals : List (Pth × Validator)) (p : Pth) (v : Value) : Int :=
  match vals with
  | [] => 0
  | q :: rest =>
    if patMatch q.1 p then
      let e := q.2 p v
      if e ≠ 0 then e else validateLeaf rest p v
    else validateLeaf rest p v

/-- Modelled from the spec: validators run over all paths of a batch first;
any veto aborts the whole batch with the first non-zero status
(spec section 4.4.3).  -/
def validateAll (vals : List (Pth × Validator)) : List (Pth × Value) → Int
  | [] => 0
  | l :: rest =>
    let e := validateLeaf vals l.1 l.2
    if e ≠ 0 then e else validateAll vals rest

/-- Modelled from the spec: one watcher task per matched watcher
registration per written path, carrying `(path, new_value)`
(spec section 4.4.1 step 3).  Watcher registrations are kept as their
pattern paths; the event list is what the dispatcher would deliver.  -/
def watchEvents (ws : List Pth) (leaves : List (Pth × Value)) : List (Pth × Value) :=
  (leaves.map (fun l => (ws.filter (fun w => patMatch w l.1)).map (fun _ => l))).flatten

/-- Modelled from the spec: apply a batch of leaves under the write lock,
stamping each with the write time (spec sections 4.4.3 and 4.1).  -/
def applyLeaves (db : DB) (leaves : List (Pth × Value)) (now : Nat) : DB :=
  leaves.foldl (fun d l => dbAdd d l.1 l.2 now) db

/-- Outcome of a mutation: the status returned to the originator, the
resulting tree, and the watcher events queued for dispatch.  -/
structure OpResult where
  status : Int
  db : DB
  events : List (Pth × Value)
  deriving DecidableEq

/-- Modelled from the spec: `set_tree(rooted_document)` — validators run
over all leaf paths first and any veto aborts the whole batch leaving the
tree unchanged and no watcher queued; otherwise all leaves are applied and
watchers are queued in the same order (spec section 4.4.3).  -/
def apteryxSetTree (vals : List (Pth × Validator)) (ws : List Pth) (db : DB)
    (leaves : List (Pth × Value)) (now : Nat) : OpResult :=
  let e := validateAll vals leaves
  if e ≠ 0 then ⟨e, db, []⟩
  else ⟨0, applyLeaves db leaves now, watchEvents ws leaves⟩

/-- Modelled from the spec: `set(path, value)` — the single-leaf batch
(spec section 4.4.1).  -/
def apteryxSet (vals : List (Pth × Validator)) (ws : List Pth) (db : DB)
    (p : Pth) (v : Value) (now : Nat) : OpResult :=
  apteryxSetTree vals ws db [(p, v)] now

/-- Modelled from the spec: `prune(path)` — validators see each removed path
with the empty value; on success the subtree is removed and one watcher
event per removed path is queued carrying the empty value to signal
deletion (spec sections 4.4.7 and the validator-precedence invariant of
section 8).  -/
def apteryxPrune (vals : List (Pth × Validator)) (ws : List Pth) (db : DB)
    (r : Pth) (_now : Nat) : OpResult :=
  let removed := (dbPrune db r).2.map (fun q => (q.1, ""))
  let e := validateAll vals removed
  if e ≠ 0 then ⟨e, db, []⟩
  else ⟨0, (dbPrune db r).1, watchEvents ws removed⟩

/-- Modelled from the spec: `cas(path, value, expected_ts)` — read the
timestamp under the write lock; if it differs from the expectation report
busy (negated EBUSY) leaving the store untouched, otherwise perform the
write and queue watchers while still holding the lock
(spec section 4.4.2).  -/
def apteryxCas (ws : List Pth) (db : DB) (p : Pth) (v : Value)
    (now tExp : Nat) : OpResult :=
  if dbTimestamp db p = tExp then ⟨0, dbAdd db p v now, watchEvents ws [(p, v)]⟩
  else ⟨-EBUSY, db, []⟩

/- ## Read-side dispatch: refreshers, providers, search -/

/-- Modelled from the spec: the refresh ledger C3 maps a refresher pattern
to the microsecond instant `expires_at`; absence or `now >= expires_at`
means the handler is invoked on the next read entering the subtree
(spec section 3 "Refresh ledger entry" and section 4.3).  Combined with the
tree into the state a read threads through.  -/
structure RefState where
  db : DB
  ledger : List (Pth × Nat)
  deriving DecidableEq

/-- Ledger lookup by pattern.  -/
def lookupLedger (l : List (Pth × Nat)) (pat : Pth) : Option Nat :=
  alookup l pat

/-- Ledger update by pattern.  -/
def setLedger (l : List (Pth × Nat)) (pat : Pth) (exp : Nat) : List (Pth × Nat) :=
  aset l pat exp

/-- Modelled from the spec: the refresh step of a read.  The first matching
refresher is consulted; if its ledger entry is missing or `now` has reached
`expires_at` the callback runs (writing into the tree and returning a TTL)
and `expires_at = now + ttl` is recorded; otherwise nothing happens
(spec section 4.3: "if missing or expired, it invokes the refresher ... and
records expires_at_us = now + returned_ttl_us.  A TTL of zero means always
stale").  Returns the new state and how many refresher invocations were
performed.  -/
def refreshDispatch (refs : List (Pth × Refresher)) (st : RefState) (p : Pth)
    (now : Nat) : RefState × Nat :=
  match refs.find? (fun q => patMatch q.1 p) with
  | none => (st, 0)
  | some q =>
    let stale :=
      match lookupLedger st.ledger q.1 with
      | none => true
      | some exp => decide (exp ≤ now)
    if stale then
      let r := q.2 p st.db
      (⟨r.1, setLedger st.ledger q.1 (now + r.2)⟩, 1)
    else (st, 0)

/-- Modelled from the spec: provider dispatch on read — "resolve
C2.match(provide, path) and invoke the first registered provider ...  If a
provider returns none, return none (do not fall back)"
(spec section 4.4.4 step 3).  The match list is most-recent-first (see
`cbRegister`).  Returns the provided value and how many provider
invocations were performed.  -/
def provideGet (provs : List (Pth × Provider)) (p : Pth) : Option Value × Nat :=
  match provs.find? (fun q => patMatch q.1 p) with
  | none => (none, 0)
  | some q => (q.2 p, 1)

/-- Outcome of a read: the value, the state after any refresher ran, and
the number of refresher and provider invocations performed.  -/
structure GetResult where
  value : Option Value
  state : RefState
  refreshCount : Nat
  provideCount : Nat

/-- Modelled from the spec: `get(path)` read composition — run stale
refreshers first, then read C1 and return a stored value if one exists,
otherwise consult providers; DB entries shadow providers
(spec section 4.4.4).  -/
def apteryxGet (refs : List (Pth × Refresher)) (provs : List (Pth × Provider))
    (st : RefState) (p : Pth) (now : Nat) : GetResult :=
  let r0 := refreshDispatch refs st p now
  match dbGet r0.1.db p with
  | some v => ⟨some v, r0.1, r0.2, 0⟩
  | none =>
    let pr := provideGet provs p
    ⟨pr.1, r0.1, r0.2, pr.2⟩

/-- String order on the underlying characters, used to sort search results
by segment (spec section 4.1: "results are sorted by segment").  -/
def charsLe : List Char → List Char → Bool
  | [], _ => true
  | _ :: _, [] => false
  | a :: as, b :: bs => if a = b then charsLe as bs else decide (a.toNat < b.toNat)

/-- Segment comparison for sorting search results.  -/
def strLeB (a b : String) : Bool := charsLe a.data b.data

/-- Insert into a sorted list of segments.  -/
def insSorted (x : String) : List String → List String
  | [] => [x]
  | y :: ys => if strLeB x y then x :: y :: ys else y :: insSorted x ys

/-- Insertion sort of segment names.  -/
def sortSegs : List String → List String
  | [] => []
  | x :: xs => insSorted x (sortSegs xs)

/-- `stripBase pre q` returns the remaining segments of `q` below the
literal base `pre`, if `pre` is an initial run of `q`.  -/
def stripBase : Pth → Pth → Option Pth
  | [], q => some q
  | _ :: _, [] => none
  | a :: ps, b :: qs => if a = b then stripBase ps qs else none

/-- `segsBelow pat pre` returns the segments of pattern `pat` below the
search root `pre`, letting a `*` pattern segment stand for any one concrete
segment of `pre` (spec section 4.2: search returns "all records whose
pattern could produce a child of prefix").  -/
def segsBelow : Pth → Pth → Option Pth
  | pat, [] => some pat
  | [], _ :: _ => none
  | a :: pat, b :: pre => if a = b ∨ a = "*" then segsBelow pat pre else none

/-- The immediate child segments of a search root that carry a value or a
value-bearing descendant (spec section 4.1 `search`).  -/
def dbChildSegs (db : DB) (pre : Pth) : List String :=
  db.filterMap (fun e =>
    match stripBase pre e.1 with
    | some (s :: _) => some s
    | _ => none)

/-- Modelled from the spec and pinned by src/test.c: the child segments a
search derives from provider registrations — each matching provider pattern
is truncated one segment below the root, and a wildcard segment is not
emitted (`test_provide_search` observes the truncated provider path in the
result; `test_provider_wildcard_search` observes that a `*` child is not
emitted).  -/
def provChildSegs (provs : List (Pth × Provider)) (pre : Pth) : List String :=
  provs.filterMap (fun q =>
    match segsBelow q.1 pre with
    | some (s :: _) => if s = "*" then none else some s
    | _ => none)

/-- Whether an indexer registration serves a search root: indexers register
one level above the children they enumerate, either as the root itself
(a registration with a trailing slash) or as the root's wildcard child
(spec section 4.2).  -/
def idxMatch (pat pre : Pth) : Bool :=
  decide (pat = pre) || decide (pat = pre ++ ["*"])

/-- Modelled from the spec and pinned by src/test.c: `search(prefix)`.
When an indexer serves the prefix, the search returns that indexer's paths
(deduplicated); the tree's children are consulted only when no indexer
matches, merged and deduplicated with the provider-derived child segments
and sorted by segment (`test_index_before_db` observes that with an indexer
registered the stored children do not appear — the result holds exactly the
two indexer paths).  Providers' values are never fetched by search.  -/
def engineSearch (idxs : List (Pth × Indexer)) (provs : List (Pth × Provider))
    (db : DB) (pre : Pth) : List Pth :=
  match idxs.find? (fun q => idxMatch q.1 pre) with
  | some q => (q.2 pre).dedup
  | none =>
    (sortSegs ((dbChildSegs db pre ++ provChildSegs provs pre).dedup)).map
      (fun s => pre ++ [s])

/- ## Self-configuration surface, from src/config.c -/

/-- A callback record as created through the configuration surface
(src/config.c `update_callback` / `handle_proxies_set`): the GUID, the
identity parsed out of it, the pattern path, and for proxies the RPC URI.  -/
structure CbInfo where
  guid : String
  pid : Nat
  callback : Nat
  cbpath : String
  uri : Option String
  deriving DecidableEq

/-- Hexadecimal digit value, as accepted by sscanf %x (src/config.c line 86
parses the GUID with "%PRIX64-%PRIx64-%PRIx64").  -/
def hexVal (c : Char) : Option Nat :=
  if '0' ≤ c ∧ c ≤ '9' then some (c.toNat - 48)
  else if 'a' ≤ c ∧ c ≤ 'f' then some (c.toNat - 87)
  else if 'A' ≤ c ∧ c ≤ 'F' then some (c.toNat - 55)
  else none

/-- Consume a run of hexadecimal digits, accumulating their value.  -/
def hexSpan (cs : List Char) (acc : Nat) : Nat × List Char :=
  match cs with
  | [] => (acc, [])
  | c :: rest =>
    match hexVal c with
    | some d => hexSpan rest (acc * 16 + d)
    | none => (acc, c :: rest)

/-- Consume at least one hexadecimal digit, as a %x conversion does.  -/
def parseHex1 (cs : List Char) : Option (Nat × List Char) :=
  match cs with
  | [] => none
  | c :: rest =>
    match hexVal c with
    | some d => some (hexSpan rest d)
    | none => none

/-- src/config.c lines 85-90: parse "(pid)-(callback)-(hash)" out of the
GUID; fewer than three hex fields is an invalid GUID and `update_callback`
returns NULL without touching the registry.  -/
def parseGuid (g : String) : Option (Nat × Nat × Nat) :=
  match parseHex1 g.data with
  | some (pid, '-' :: r1) =>
    match parseHex1 r1 with
    | some (cb, '-' :: r2) =>
      match parseHex1 r2 with
      | some (h, _) => some (pid, cb, h)
      | none => none
    | _ => none
  | _ => none

/-- The registry of configured callbacks of one kind, keyed by GUID.  It
stands for both the guid_to_callback hash table and the kind's callback
list of src/config.c, whose helper structures (callback.c) are not in
src/.  -/
abbrev CbTable := List (String × CbInfo)

/-- src/config.c `update_callback` (lines 79-142), with the cb_create /
cb_release helpers modelled from the spec (section 3 "Callback record"
lifecycle: created when the registry path is written with a non-empty
value; destroyed when the path is written with an empty value): an invalid
GUID changes nothing; writing a value replaces any existing record with a
fresh one holding the written pattern path; writing no value removes the
record if present.  Returns the created record.  -/
def updateCallback (table : CbTable) (guid : String) (value : Option String) :
    Option CbInfo × CbTable :=
  match parseGuid guid with
  | none => (none, table)
  | some (pid, cbid, _) =>
    match value with
    | some v =>
      let cb : CbInfo := ⟨guid, pid, cbid, v, none⟩
      (some cb, aset table guid cb)
    | none =>
      match alookup table guid with
      | none => (none, table)
      | some _ => (none, aerase table guid)

/-- `listStartsWith s pre` mirrors strncmp(s, pre, strlen pre) == 0.  -/
def listStartsWith : List Char → List Char → Bool
  | _, [] => true
  | [], _ :: _ => false
  | a :: s, b :: p => decide (a = b) && listStartsWith s p

/-- String version of `listStartsWith`.  -/
def strStartsWith (s p : String) : Bool := listStartsWith s.data p.data

/-- Split a character list at its last colon, returning the characters
before and after it; mirrors `path = strrchr (value, ':') + 1` together
with `strndup (value, strlen (value) - strlen (path) - 1)`
(src/config.c lines 226-232).  -/
def lastColonSplit : List Char → Option (List Char × List Char)
  | [] => none
  | c :: rest =>
    match lastColonSplit rest with
    | some (b, a) => some (c :: b, a)
    | none => if c = ':' then some ([], rest) else none

/-- src/config.c `handle_proxies_set` (lines 209-242): a written value that
does not begin with "unix://" or "tcp://" is rejected (the handler returns
false before touching the registry); a valid value is split at its last
colon — the suffix becomes the record's pattern path and the prefix its
RPC URI.  Writing no value only looks the record up (the proxy handler,
unlike the other kind handlers, does not remove it).  -/
def handleProxiesSet (table : CbTable) (guid : String) (value : Option String) :
    Bool × CbTable :=
  match value with
  | some v =>
    if ¬ (strStartsWith v "unix://" = true ∨ strStartsWith v "tcp://" = true) then
      (false, table)
    else
      match lastColonSplit v.data with
      | none => (true, table)
      | some (before, after) =>
        match updateCallback table guid (some (String.mk after)) with
        | (none, table1) => (true, table1)
        | (some cb, table1) =>
          (true, aset table1 guid ⟨cb.guid, cb.pid, cb.callback, cb.cbpath,
            some (String.mk before)⟩)
  | none => (true, table)

/- ## Derived facts about the tree operations -/

theorem dbGet_dbAdd_self (db : DB) (p : Pth) (v : Value) (t : Nat) (hv : v ≠ "") :
    dbGet (dbAdd db p v t) p = some v := by
  simp [dbGet, dbAdd, hv, alookup_aset_self]

theorem dbGet_dbAdd_ne (db : DB) (p q : Pth) (w : Value) (t : Nat) (hq : q ≠ p) :
    dbGet (dbAdd db q w t) p = dbGet db p := by
  have hq' : p ≠ q := fun hh => hq hh.symm
  unfold dbGet dbAdd
  by_cases hw : w = ""
  · rw [if_pos hw, alookup_aerase_ne db q p hq']
  · rw [if_neg hw, alookup_aset_ne db q p _ hq']

theorem dbGet_dbAdd_empty (db : DB) (p : Pth) (t : Nat) :
    dbGet (dbAdd db p "" t) p = none := by
  simp [dbGet, dbAdd, alookup_aerase_self]

theorem dbGet_dbPrune_notBelow (db : DB) (r p : Pth) (h : pathBelow r p = false) :
    dbGet (dbPrune db r).1 p = dbGet db p := by
  simp [dbGet, dbPrune, alookup_filter_notBelow db r p h]

theorem apteryxSet_db_cases (vals : List (Pth × Validator)) (ws : List Pth) (db : DB)
    (p : Pth) (v : Value) (now : Nat) :
    (apteryxSet vals ws db p v now).db = db ∨
    (apteryxSet vals ws db p v now).db = dbAdd db p v now := by
  unfold apteryxSet apteryxSetTree
  by_cases h : validateAll vals [(p, v)] ≠ 0
  · simp [h]
  · simp [h, applyLeaves]

theorem apteryxPrune_db_cases (vals : List (Pth × Validator)) (ws : List Pth) (db : DB)
    (r : Pth) (now : Nat) :
    (apteryxPrune vals ws db r now).db = db ∨
    (apteryxPrune vals ws db r now).db = (dbPrune db r).1 := by
  unfold apteryxPrune
  by_cases h : validateAll vals ((dbPrune db r).2.map (fun q => (q.1, ""))) ≠ 0
  · simp [h]
  · simp [h]

theorem apteryxSet_success_db (vals : List (Pth × Validator)) (ws : List Pth) (db : DB)
    (p : Pth) (v : Value) (now : Nat)
    (h : (apteryxSet vals ws db p v now).status = 0) :
    (apteryxSet vals ws db p v now).db = dbAdd db p v now := by
  unfold apteryxSet apteryxSetTree at h ⊢
  by_cases hv : validateAll vals [(p, v)] ≠ 0
  · rw [if_pos hv] at h
    exact absurd h hv
  · simp [hv, applyLeaves]

/- ## Claim C1 -/

/-- Claim C1: for every path P and non-empty value v, after set(P, v)
succeeds, get(P) returns exactly v; a later set at a different path or a
prune that does not cover P leaves that reading intact; and setting the
empty value at P deletes the leaf, after which get(P) returns none.  -/
theorem c1_set_get_delete
    (vals vals2 : List (Pth × Validator)) (ws ws2 : List Pth) (db : DB)
    (p q r : Pth) (v w : Value) (now now2 now3 now4 : Nat)
    (hv : v ≠ "") (hs : (apteryxSet vals ws db p v now).status = 0)
    (hq : q ≠ p) (hr : pathBelow r p = false) :
    dbGet (apteryxSet vals ws db p v now).db p = some v ∧
    dbGet (apteryxSet vals2 ws2 (apteryxSet vals ws db p v now).db q w now2).db p
      = some v ∧
    dbGet (apteryxPrune vals2 ws2 (apteryxSet vals ws db p v now).db r now3).db p
      = some v ∧
    dbGet (apteryxSet [] ws (apteryxSet vals ws db p v now).db p "" now4).db p
      = none := by
  have hdb1 : (apteryxSet vals ws db p v now).db = dbAdd db p v now :=
    apteryxSet_success_db vals ws db p v now hs
  have hget : dbGet (apteryxSet vals ws db p v now).db p = some v := by
    rw [hdb1]
    exact dbGet_dbAdd_self db p v now hv
  refine ⟨hget, ?_, ?_, ?_⟩
  · rcases apteryxSet_db_cases vals2 ws2 (apteryxSet vals ws db p v now).db q w now2
      with hc | hc
    · rw [hc, hget]
    · rw [hc, dbGet_dbAdd_ne _ p q w now2 hq, hget]
  · rcases apteryxPrune_db_cases vals2 ws2 (apteryxSet vals ws db p v now).db r now3
      with hc | hc
    · rw [hc, hget]
    · rw [hc, dbGet_dbPrune_notBelow _ r p hr, hget]
  · have hz : (apteryxSet [] ws (apteryxSet vals ws db p v now).db p "" now4).db
        = dbAdd (apteryxSet vals ws db p v now).db p "" now4 := by
      apply apteryxSet_success_db
      have hval : validateAll ([] : List (Pth × Validator)) [(p, "")] = 0 := rfl
      simp [apteryxSet, apteryxSetTree, hval]
    rw [hz, dbGet_dbAdd_empty]

/-- Claim C1 witness: the concrete scenario of `test_set_get` and
`test_delete` — set then get returns the value; an unrelated set and an
unrelated prune keep it; the empty write deletes it.  -/
theorem c1_set_get_delete_witness :
    dbGet (apteryxSet [] [] [] ["test", "a", "b"] "1" 1).db ["test", "a", "b"]
      = some "1" ∧
    dbGet (apteryxSet [] [] (apteryxSet [] [] [] ["test", "a", "b"] "1" 1).db
        ["test", "c"] "2" 2).db ["test", "a", "b"] = some "1" ∧
    dbGet (apteryxPrune [] [] (apteryxSet [] [] [] ["test", "a", "b"] "1" 1).db
        ["other"] 3).db ["test", "a", "b"] = some "1" ∧
    dbGet (apteryxSet [] [] (apteryxSet [] [] [] ["test", "a", "b"] "1" 1).db
        ["test", "a", "b"] "" 4).db ["test", "a", "b"] = none :=
  c1_set_get_delete [] [] [] [] [] ["test", "a", "b"] ["test", "c"] ["other"]
    "1" "2" 1 2 3 4 (by decide) (by decide) (by decide) (by decide)

/- ## Claim C2 -/

/-- Claim C2: cas(P, v, t) with t different from the current timestamp of P
fails with negated EBUSY and leaves the store unchanged; cas with t equal
to the current timestamp succeeds and a subsequent get returns v; a path
that has never been written has timestamp 0, so cas with expectation 0
succeeds there.  -/
theorem c2_cas_busy_and_success
    (ws : List Pth) (db : DB) (p p2 : Pth) (v : Value) (now tExp tBad : Nat)
    (hv : v ≠ "") (hts : dbTimestamp db p = tExp) (hbad : tBad ≠ tExp)
    (hfresh : db.filter (fun e => pathBelow p2 e.1) = []) :
    apteryxCas ws db p v now tBad = ⟨-EBUSY, db, []⟩ ∧
    (apteryxCas ws db p v now tExp).status = 0 ∧
    dbGet (apteryxCas ws db p v now tExp).db p = some v ∧
    dbTimestamp db p2 = 0 ∧
    (apteryxCas ws db p2 v now 0).status = 0 := by
  have hbad' : ¬ (tExp = tBad) := fun hh => hbad hh.symm
  have h0 : dbTimestamp db p2 = 0 := by simp [dbTimestamp, hfresh]
  refine ⟨?_, ?_, ?_, h0, ?_⟩
  · simp [apteryxCas, hts, hbad']
  · simp [apteryxCas, hts]
  · simp [apteryxCas, hts, dbGet_dbAdd_self db p v now hv]
  · simp [apteryxCas, h0]

/-- Claim C2 witness: the concrete scenario of `test_cas` — with the leaf
stamped 5, cas with expectation 0 is busy and changes nothing, cas with
expectation 5 succeeds and get returns the new value, and a never-written
path has timestamp 0 so cas 0 succeeds there.  -/
theorem c2_cas_busy_and_success_witness :
    apteryxCas [] [( ["test", "ifindex"], "1", 5 )] ["test", "ifindex"] "3" 7 0
      = ⟨-EBUSY, [( ["test", "ifindex"], "1", 5 )], []⟩ ∧
    (apteryxCas [] [( ["test", "ifindex"], "1", 5 )] ["test", "ifindex"] "3" 7 5).status
      = 0 ∧
    dbGet (apteryxCas [] [( ["test", "ifindex"], "1", 5 )] ["test", "ifindex"] "3" 7 5).db
        ["test", "ifindex"] = some "3" ∧
    dbTimestamp [( ["test", "ifindex"], "1", 5 )] ["test", "fresh"] = 0 ∧
    (apteryxCas [] [( ["test", "ifindex"], "1", 5 )] ["test", "fresh"] "3" 7 0).status
      = 0 :=
  c2_cas_busy_and_success [] [( ["test", "ifindex"], "1", 5 )] ["test", "ifindex"]
    ["test", "fresh"] "3" 7 5 0 (by decide) (by decide) (by decide) (by decide)

/- ## Claim C3 -/

/-- Claim C3: for set, prune and set_tree, a non-zero return from any
matching validator makes the operation return that error with the tree
unchanged and no watcher event queued; in particular every path reads the
same after a vetoed set_tree as before it.  -/
theorem c3_validator_veto
    (vals : List (Pth × Validator)) (ws : List Pth) (db : DB)
    (leaves : List (Pth × Value)) (p q r : Pth) (v : Value) (now : Nat)
    (hveto : validateAll vals leaves ≠ 0)
    (hvset : validateAll vals [(p, v)] ≠ 0)
    (hvpr : validateAll vals ((dbPrune db r).2.map (fun e => (e.1, ""))) ≠ 0) :
    apteryxSetTree vals ws db leaves now = ⟨validateAll vals leaves, db, []⟩ ∧
    apteryxSet vals ws db p v now = ⟨validateAll vals [(p, v)], db, []⟩ ∧
    apteryxPrune vals ws db r now
      = ⟨validateAll vals ((dbPrune db r).2.map (fun e => (e.1, ""))), db, []⟩ ∧
    dbGet (apteryxSetTree vals ws db leaves now).db q = dbGet db q := by
  have h1 : apteryxSetTree vals ws db leaves now = ⟨validateAll vals leaves, db, []⟩ := by
    simp [apteryxSetTree, hveto]
  refine ⟨h1, ?_, ?_, by rw [h1]⟩
  · simp [apteryxSet, apteryxSetTree, hvset]
  · simp [apteryxPrune, hvpr]

/-- Concrete validator used to exercise claim C3: registered on the
wildcard below the batch root, it refuses the leaf numbered 6 with
-EPERM, mirroring `test_validate_refuse_callback` and the spec's
scenario 5.  -/
def c3RefuseVals : List (Pth × Validator) :=
  [( ["test", "zones", "private", "*"],
     fun p _ => if p = ["test", "zones", "private", "6"] then -EPERM else 0 )]

/-- Concrete watcher registration used to exercise claim C3.  -/
def c3Ws : List Pth := [["test", "zones", "private", "*"]]

/-- Concrete starting tree used to exercise claim C3's prune case.  -/
def c3Db : DB := [( ["test", "zones", "private", "6"], "x", 1 )]

/-- The ten-leaf batch of the spec's scenario 5.  -/
def c3Leaves : List (Pth × Value) :=
  [( ["test", "zones", "private", "0"], "0" ), ( ["test", "zones", "private", "1"], "1" ),
   ( ["test", "zones", "private", "2"], "2" ), ( ["test", "zones", "private", "3"], "3" ),
   ( ["test", "zones", "private", "4"], "4" ), ( ["test", "zones", "private", "5"], "5" ),
   ( ["test", "zones", "private", "6"], "6" ), ( ["test", "zones", "private", "7"], "7" ),
   ( ["test", "zones", "private", "8"], "8" ), ( ["test", "zones", "private", "9"], "9" )]

/-- Claim C3 witness: the spec's scenario 5 — a ten-leaf batch whose
validator refuses one leaf returns the veto with the tree unchanged and no
watcher event, and a vetoed single set and a vetoed prune behave the same
way.  -/
theorem c3_validator_veto_witness :
    apteryxSetTree c3RefuseVals c3Ws c3Db c3Leaves 1
      = ⟨validateAll c3RefuseVals c3Leaves, c3Db, []⟩ ∧
    apteryxSet c3RefuseVals c3Ws c3Db ["test", "zones", "private", "6"] "up" 1
      = ⟨validateAll c3RefuseVals [( ["test", "zones", "private", "6"], "up" )], c3Db, []⟩ ∧
    apteryxPrune c3RefuseVals c3Ws c3Db ["test", "zones", "private"] 1
      = ⟨validateAll c3RefuseVals
          ((dbPrune c3Db ["test", "zones", "private"]).2.map (fun e => (e.1, ""))),
         c3Db, []⟩ ∧
    dbGet (apteryxSetTree c3RefuseVals c3Ws c3Db c3Leaves 1).db
        ["test", "zones", "private", "0"]
      = dbGet c3Db ["test", "zones", "private", "0"] :=
  c3_validator_veto c3RefuseVals c3Ws c3Db c3Leaves
    ["test", "zones", "private", "6"] ["test", "zones", "private", "0"]
    ["test", "zones", "private"] "up" 1 (by decide) (by decide) (by decide)

/- ## Claim C4 -/

/-- Claim C4: a stored value shadows a matching provider — get returns the
DB value with zero provider invocations; the provider is invoked only
when no DB entry exists, and when the invoked provider returns none the
get returns none without falling back to any other source.  -/
theorem c4_db_shadows_provider
    (provs : List (Pth × Provider)) (st : RefState) (p p2 : Pth) (v : Value)
    (pat : Pth) (f : Provider) (now : Nat)
    (h1 : dbGet st.db p = some v)
    (h2 : dbGet st.db p2 = none)
    (h3 : provs.find? (fun q => patMatch q.1 p2) = some (pat, f))
    (h4 : f p2 = none) :
    apteryxGet [] provs st p now = ⟨some v, st, 0, 0⟩ ∧
    apteryxGet [] provs st p2 now = ⟨none, st, 0, 1⟩ := by
  have hrd : ∀ q : Pth, refreshDispatch [] st q now = (st, 0) := fun q => rfl
  constructor
  · simp [apteryxGet, hrd, h1]
  · simp [apteryxGet, hrd, h2, provideGet, h3, h4]

/-- Claim C4 witness: the concrete scenario of `test_provide_after_db` and
`test_provide_callback_get_null` — with "down" stored at the first path and
a provider registered there returning "up", get returns "down" without
invoking any provider; at the second path, which has no DB entry, the
matching provider returns none and get returns none after exactly one
provider invocation.  -/
theorem c4_db_shadows_provider_witness :
    apteryxGet []
        [( ["test", "interfaces", "eth0", "state"], fun _ => some "up" ),
         ( ["test", "interfaces", "eth0", "statii"], fun _ => none )]
        ⟨[( ["test", "interfaces", "eth0", "state"], "down", 1 )], []⟩
        ["test", "interfaces", "eth0", "state"] 2
      = ⟨some "down", ⟨[( ["test", "interfaces", "eth0", "state"], "down", 1 )], []⟩, 0, 0⟩ ∧
    apteryxGet []
        [( ["test", "interfaces", "eth0", "state"], fun _ => some "up" ),
         ( ["test", "interfaces", "eth0", "statii"], fun _ => none )]
        ⟨[( ["test", "interfaces", "eth0", "state"], "down", 1 )], []⟩
        ["test", "interfaces", "eth0", "statii"] 2
      = ⟨none, ⟨[( ["test", "interfaces", "eth0", "state"], "down", 1 )], []⟩, 0, 1⟩ :=
  c4_db_shadows_provider
    [( ["test", "interfaces", "eth0", "state"], fun _ => some "up" ),
     ( ["test", "interfaces", "eth0", "statii"], fun _ => none )]
    ⟨[( ["test", "interfaces", "eth0", "state"], "down", 1 )], []⟩
    ["test", "interfaces", "eth0", "state"] ["test", "interfaces", "eth0", "statii"]
    "down" ["test", "interfaces", "eth0", "statii"] (fun _ => none) 2
    (by decide) (by decide) rfl rfl

/- ## Claim C5 -/

/-- Claim C5: with a matching refresher registered and no unexpired ledger
entry, a get invokes the refresher exactly once and records the expiry
now + TTL; a further get before that instant performs zero additional
invocations and leaves the state untouched; a further get at or after that
instant performs exactly one additional invocation.  With a returned TTL
of zero the expiry equals the read time itself, so every later read
re-invokes (instantiate the third read time with any instant from the
first read on).  -/
theorem c5_refresh_ttl
    (f : Refresher) (pat : Pth) (st : RefState) (p : Pth) (t0 t1 t2 : Nat)
    (hm : patMatch pat p = true)
    (h0 : lookupLedger st.ledger pat = none)
    (h1 : t1 < t0 + (f p st.db).2)
    (h2 : t0 + (f p st.db).2 ≤ t2) :
    (apteryxGet [(pat, f)] [] st p t0).refreshCount = 1 ∧
    lookupLedger (apteryxGet [(pat, f)] [] st p t0).state.ledger pat
      = some (t0 + (f p st.db).2) ∧
    (apteryxGet [(pat, f)] []
        ((apteryxGet [(pat, f)] [] st p t0).state) p t1).refreshCount = 0 ∧
    (apteryxGet [(pat, f)] []
        ((apteryxGet [(pat, f)] [] st p t0).state) p t1).state
      = (apteryxGet [(pat, f)] [] st p t0).state ∧
    (apteryxGet [(pat, f)] []
        ((apteryxGet [(pat, f)] [] st p t0).state) p t2).refreshCount = 1 := by
  have hsc : ∀ (st' : RefState) (t : Nat),
      (apteryxGet [(pat, f)] [] st' p t).state = (refreshDispatch [(pat, f)] st' p t).1 ∧
      (apteryxGet [(pat, f)] [] st' p t).refreshCount
        = (refreshDispatch [(pat, f)] st' p t).2 := by
    intro st' t
    unfold apteryxGet
    cases h : dbGet (refreshDispatch [(pat, f)] st' p t).1.db p <;> simp [h]
  have hrd0 : refreshDispatch [(pat, f)] st p t0
      = (⟨(f p st.db).1, setLedger st.ledger pat (t0 + (f p st.db).2)⟩, 1) := by
    simp [refreshDispatch, hm, h0]
  have hst1 : (apteryxGet [(pat, f)] [] st p t0).state
      = ⟨(f p st.db).1, setLedger st.ledger pat (t0 + (f p st.db).2)⟩ := by
    rw [(hsc st t0).1, hrd0]
  have hled : lookupLedger (apteryxGet [(pat, f)] [] st p t0).state.ledger pat
      = some (t0 + (f p st.db).2) := by
    rw [hst1]
    exact alookup_aset_self st.ledger pat (t0 + (f p st.db).2)
  have hstale1 : ¬ (t0 + (f p st.db).2 ≤ t1) := by omega
  have hrd1 : refreshDispatch [(pat, f)] ((apteryxGet [(pat, f)] [] st p t0).state) p t1
      = ((apteryxGet [(pat, f)] [] st p t0).state, 0) := by
    simp [refreshDispatch, hm, hled, hstale1]
  have hrd2 : (refreshDispatch [(pat, f)]
      ((apteryxGet [(pat, f)] [] st p t0).state) p t2).2 = 1 := by
    simp [refreshDispatch, hm, hled, h2]
  refine ⟨?_, hled, ?_, ?_, ?_⟩
  · rw [(hsc st t0).2, hrd0]
  · rw [(hsc _ t1).2, hrd1]
  · rw [(hsc _ t1).1, hrd1]
  · rw [(hsc _ t2).2, hrd2]

/-- Claim C5 witness: the concrete scenario of `test_refresh_unneeded` and
`test_refresh_timeout` — a refresher on the interface wildcard with a
5000 microsecond TTL writing "0": the first get at time 10 invokes it once
and records expiry 5010, a get at 5009 performs no invocation and changes
nothing, and a get at 5010 invokes it once more.  -/
theorem c5_refresh_ttl_witness :
    (apteryxGet [( ["test", "if", "*"], fun q db => (dbAdd db q "0" 10, 5000) )] []
        ⟨[], []⟩ ["test", "if", "eth0"] 10).refreshCount = 1 ∧
    lookupLedger (apteryxGet [( ["test", "if", "*"], fun q db => (dbAdd db q "0" 10, 5000) )] []
        ⟨[], []⟩ ["test", "if", "eth0"] 10).state.ledger ["test", "if", "*"]
      = some (10 + ((fun (q : Pth) (db : DB) => (dbAdd db q "0" 10, 5000))
          ["test", "if", "eth0"] ([] : DB)).2) ∧
    (apteryxGet [( ["test", "if", "*"], fun q db => (dbAdd db q "0" 10, 5000) )] []
        ((apteryxGet [( ["test", "if", "*"], fun q db => (dbAdd db q "0" 10, 5000) )] []
          ⟨[], []⟩ ["test", "if", "eth0"] 10).state) ["test", "if", "eth0"] 5009).refreshCount
      = 0 ∧
    (apteryxGet [( ["test", "if", "*"], fun q db => (dbAdd db q "0" 10, 5000) )] []
        ((apteryxGet [( ["test", "if", "*"], fun q db => (dbAdd db q "0" 10, 5000) )] []
          ⟨[], []⟩ ["test", "if", "eth0"] 10).state) ["test", "if", "eth0"] 5009).state
      = (apteryxGet [( ["test", "if", "*"], fun q db => (dbAdd db q "0" 10, 5000) )] []
          ⟨[], []⟩ ["test", "if", "eth0"] 10).state ∧
    (apteryxGet [( ["test", "if", "*"], fun q db => (dbAdd db q "0" 10, 5000) )] []
        ((apteryxGet [( ["test", "if", "*"], fun q db => (dbAdd db q "0" 10, 5000) )] []
          ⟨[], []⟩ ["test", "if", "eth0"] 10).state) ["test", "if", "eth0"] 5010).refreshCount
      = 1 :=
  c5_refresh_ttl (fun q db => (dbAdd db q "0" 10, 5000)) ["test", "if", "*"]
    ⟨[], []⟩ ["test", "if", "eth0"] 10 5009 5010
    (by decide) rfl (by decide) (by decide)

/- ## Claim C6 -/

theorem mem_insSorted (x y : String) (l : List String) :
    y ∈ insSorted x l ↔ y = x ∨ y ∈ l := by
  induction l with
  | nil => simp [insSorted]
  | cons a as ih =>
    by_cases h : strLeB x a
    · simp [insSorted, h]
    · simp [insSorted, h, ih]
      tauto

theorem mem_sortSegs (y : String) (l : List String) : y ∈ sortSegs l ↔ y ∈ l := by
  induction l with
  | nil => simp [sortSegs]
  | cons a as ih => simp [sortSegs, mem_insSorted, ih]

/-- Claim C6 counterexample: the concrete scenario of `test_index_before_db`
— an indexer on the search root emitting rx and tx while the tree stores
the children up and down.  The claim predicts the union of both sources,
but the search returns exactly the indexer's two paths and the stored child
up, although value-bearing, is absent.  -/
theorem c6_counterexample :
    engineSearch
        [( ["test", "counters"],
           fun _ => [["test", "counters", "rx"], ["test", "counters", "tx"]] )] []
        [( ["test", "counters", "up"], "1", 1 ),
         ( ["test", "counters", "down"], "2", 2 )]
        ["test", "counters"]
      = [["test", "counters", "rx"], ["test", "counters", "tx"]] ∧
    dbGet [( ["test", "counters", "up"], "1", 1 ),
           ( ["test", "counters", "down"], "2", 2 )] ["test", "counters", "up"]
      = some "1" ∧
    ["test", "counters", "up"] ∉
      engineSearch
        [( ["test", "counters"],
           fun _ => [["test", "counters", "rx"], ["test", "counters", "tx"]] )] []
        [( ["test", "counters", "up"], "1", 1 ),
         ( ["test", "counters", "down"], "2", 2 )]
        ["test", "counters"] := by decide

/-- Claim C6 as amended: when an indexer registration serves the search
root, search(prefix) returns exactly the deduplicated paths the indexer
emits — stored DB children do not appear alongside them; the tree's
immediate children (merged with provider-derived child segments) are
returned only when no indexer matches.  -/
theorem c6_indexer_shadows_db
    (idxs : List (Pth × Indexer)) (provs : List (Pth × Provider)) (db : DB)
    (pre : Pth) (q : Pth × Indexer) (x : Pth)
    (h : idxs.find? (fun r => idxMatch r.1 pre) = some q) :
    engineSearch idxs provs db pre = (q.2 pre).dedup ∧
    (x ∈ engineSearch idxs provs db pre ↔ x ∈ q.2 pre) := by
  have h1 : engineSearch idxs provs db pre = (q.2 pre).dedup := by
    simp [engineSearch, h]
  refine ⟨h1, ?_⟩
  rw [h1]
  exact List.mem_dedup

/-- Claim C6 amended witness: at the `test_index_before_db` scenario the
search result is the indexer's deduplicated output, and membership in the
result is membership in the indexer's output.  -/
theorem c6_indexer_shadows_db_witness :
    engineSearch
        [( ["test", "counters"],
           fun _ => [["test", "counters", "rx"], ["test", "counters", "tx"]] )] []
        [( ["test", "counters", "up"], "1", 1 ),
         ( ["test", "counters", "down"], "2", 2 )]
        ["test", "counters"]
      = ((fun (_ : Pth) => [["test", "counters", "rx"], ["test", "counters", "tx"]])
          ["test", "counters"]).dedup ∧
    (["test", "counters", "up"] ∈
        engineSearch
          [( ["test", "counters"],
             fun _ => [["test", "counters", "rx"], ["test", "counters", "tx"]] )] []
          [( ["test", "counters", "up"], "1", 1 ),
           ( ["test", "counters", "down"], "2", 2 )]
          ["test", "counters"] ↔
      ["test", "counters", "up"] ∈
        (fun (_ : Pth) => [["test", "counters", "rx"], ["test", "counters", "tx"]])
          ["test", "counters"]) :=
  c6_indexer_shadows_db
    [( ["test", "counters"],
       fun _ => [["test", "counters", "rx"], ["test", "counters", "tx"]] )] []
    [( ["test", "counters", "up"], "1", 1 ),
     ( ["test", "counters", "down"], "2", 2 )]
    ["test", "counters"]
    ( ["test", "counters"],
      fun _ => [["test", "counters", "rx"], ["test", "counters", "tx"]] )
    ["test", "counters", "up"] rfl

/- ## Claim C7 -/

/-- Claim C7 counterexample: the concrete scenario of `test_provide_search`
— a provider registered at .../state that was never stored, with .../size
stored in the tree.  The claim predicts the provider's leaf path can never
appear; the search of the shared parent returns it.  -/
theorem c7_counterexample :
    ["test", "interfaces", "eth0", "state"] ∈
      engineSearch []
        [( ["test", "interfaces", "eth0", "state"], fun _ => some "up" )]
        [( ["test", "interfaces", "eth0", "size"], "huge", 1 )]
        ["test", "interfaces", "eth0"] ∧
    dbGet [( ["test", "interfaces", "eth0", "size"], "huge", 1 )]
        ["test", "interfaces", "eth0", "state"] = none ∧
    engineSearch []
        [( ["test", "interfaces", "eth0", "state"], fun _ => some "up" )]
        [( ["test", "interfaces", "eth0", "size"], "huge", 1 )]
        ["test", "interfaces", "eth0"]
      = [["test", "interfaces", "eth0", "size"], ["test", "interfaces", "eth0", "state"]]
  := by decide

/-- Claim C7 as amended: search(prefix) does walk provider registrations —
each matching provider pattern contributes the prefix extended by the
pattern's next segment (deduplicated with the tree's children), except that
a wildcard next segment is not emitted; provider values are never
fetched.  -/
theorem c7_provider_paths_in_search
    (idxs : List (Pth × Indexer)) (provs : List (Pth × Provider)) (db : DB)
    (pre rest rest2 pat pat2 : Pth) (f f2 : Provider) (s : String)
    (hidx : idxs.find? (fun q => idxMatch q.1 pre) = none)
    (hp : (pat, f) ∈ provs)
    (hs : segsBelow pat pre = some (s :: rest))
    (hw : s ≠ "*")
    (hs2 : segsBelow pat2 pre = some ("*" :: rest2)) :
    pre ++ [s] ∈ engineSearch idxs provs db pre ∧
    provChildSegs [(pat2, f2)] pre = [] := by
  constructor
  · have hseg : s ∈ provChildSegs provs pre := by
      apply List.mem_filterMap.mpr
      exact ⟨(pat, f), hp, by simp [hs, hw]⟩
    simp only [engineSearch, hidx, List.mem_map]
    exact ⟨s, by
      rw [mem_sortSegs, List.mem_dedup]
      exact List.mem_append.mpr (Or.inr hseg), rfl⟩
  · simp [provChildSegs, hs2]

/-- Claim C7 amended witness: at the `test_provide_search` scenario the
provider's truncated path is in the search result, while a provider on a
wildcard child (the `test_provider_wildcard_search` scenario) contributes
no segment.  -/
theorem c7_provider_paths_in_search_witness :
    ["test", "interfaces", "eth0"] ++ ["state"] ∈
      engineSearch []
        [( ["test", "interfaces", "eth0", "state"], fun _ => some "up" )]
        [( ["test", "interfaces", "eth0", "size"], "huge", 1 )]
        ["test", "interfaces", "eth0"] ∧
    provChildSegs [( ["test", "interfaces", "eth0", "*", "y"], fun _ => none )]
        ["test", "interfaces", "eth0"] = [] :=
  c7_provider_paths_in_search []
    [( ["test", "interfaces", "eth0", "state"], fun _ => some "up" )]
    [( ["test", "interfaces", "eth0", "size"], "huge", 1 )]
    ["test", "interfaces", "eth0"] [] ["y"]
    ["test", "interfaces", "eth0", "state"] ["test", "interfaces", "eth0", "*", "y"]
    (fun _ => some "up") (fun _ => none) "state"
    rfl (List.mem_singleton.mpr rfl) (by decide) (by decide) (by decide)

/- ## Claim C8 -/

/-- Claim C8 counterexample: the concrete scenario of
`test_provide_replace_handler` — a provider returning "up" registered
first, then a provider returning "down" registered for the same path.  The
claim predicts get returns the first registration's "up"; it returns the
later registration's "down".  -/
theorem c8_counterexample :
    (apteryxGet []
        (cbRegister
          (cbRegister [] ["test", "interfaces", "eth0", "state"] (fun _ => some "up"))
          ["test", "interfaces", "eth0", "state"] (fun _ => some "down"))
        ⟨[], []⟩ ["test", "interfaces", "eth0", "state"] 1).value = some "down" ∧
    (some "down" : Option Value) ≠ some "up" := by decide

/-- Claim C8 as amended: when more than one provider registration matches a
path, get invokes the most recently registered matching provider and
returns its value.  -/
theorem c8_last_registered_provider_wins
    (provs : List (Pth × Provider)) (pat : Pth) (f : Provider) (st : RefState)
    (p : Pth) (v : Value) (now : Nat)
    (hm : patMatch pat p = true)
    (hdb : dbGet st.db p = none)
    (hf : f p = some v) :
    (apteryxGet [] (cbRegister provs pat f) st p now).value = some v := by
  have hrd : refreshDispatch [] st p now = (st, 0) := rfl
  have hfind : (cbRegister provs pat f).find? (fun q => patMatch q.1 p) = some (pat, f) := by
    simp [cbRegister, List.find?_cons, hm]
  simp [apteryxGet, hrd, hdb, provideGet, hfind, hf]

/-- Claim C8 amended witness: at the `test_provide_replace_handler`
scenario the later registration's value "down" is returned.  -/
theorem c8_last_registered_provider_wins_witness :
    (apteryxGet []
        (cbRegister
          (cbRegister [] ["test", "interfaces", "eth0", "state"] (fun _ => some "up"))
          ["test", "interfaces", "eth0", "state"] (fun _ => some "down"))
        ⟨[], []⟩ ["test", "interfaces", "eth0", "state"] 1).value = some "down" :=
  c8_last_registered_provider_wins
    (cbRegister [] ["test", "interfaces", "eth0", "state"] (fun _ => some "up"))
    ["test", "interfaces", "eth0", "state"] (fun _ => some "down")
    ⟨[], []⟩ ["test", "interfaces", "eth0", "state"] "down" 1
    (by decide) (by decide) rfl

/- ## Claim C10 -/

/-- Claim C10: a write to /apteryx/proxies/(guid) whose non-empty value
begins with neither "unix://" nor "tcp://" is rejected — the handler
returns false and the registry is untouched — while a valid value is split
at its last colon, the prefix becoming the record's RPC URI and the suffix
the forwarded pattern path stored on the record
(src/config.c `handle_proxies_set`, lines 209-242).  -/
theorem c10_proxy_uri_validation
    (table : CbTable) (guid : String) (v v2 : String)
    (g : Nat × Nat × Nat) (bef aft : List Char)
    (hns : strStartsWith v2 "unix://" = false)
    (hnt : strStartsWith v2 "tcp://" = false)
    (hu : strStartsWith v "unix://" = true ∨ strStartsWith v "tcp://" = true)
    (hg : parseGuid guid = some g)
    (hsplit : lastColonSplit v.data = some (bef, aft)) :
    handleProxiesSet table guid (some v2) = (false, table) ∧
    (handleProxiesSet table guid (some v)).1 = true ∧
    alookup (handleProxiesSet table guid (some v)).2 guid
      = some ⟨guid, g.1, g.2.1, String.mk aft, some (String.mk bef)⟩ := by
  obtain ⟨pid, cbid, hsh⟩ := g
  have hbad : handleProxiesSet table guid (some v2) = (false, table) := by
    simp [handleProxiesSet, hns, hnt]
  have hgood : handleProxiesSet table guid (some v)
      = (true, aset (aset table guid ⟨guid, pid, cbid, String.mk aft, none⟩) guid
          ⟨guid, pid, cbid, String.mk aft, some (String.mk bef)⟩) := by
    rcases hu with hu | hu <;>
      simp [handleProxiesSet, hu, hsplit, updateCallback, hg]
  refine ⟨hbad, ?_, ?_⟩
  · rw [hgood]
  · rw [hgood]
    exact alookup_aset_self _ guid _

/-- Claim C10 witness: the GUID "1A-2b-3c" with the invalid value
"ftp://zzz" is rejected leaving the empty registry unchanged, while the
valid value "tcp://host:9999:/remote/x" creates the record with URI
"tcp://host:9999" and pattern path "/remote/x".  -/
theorem c10_proxy_uri_validation_witness :
    handleProxiesSet [] "1A-2b-3c" (some "ftp://zzz") = (false, []) ∧
    (handleProxiesSet [] "1A-2b-3c" (some "tcp://host:9999:/remote/x")).1 = true ∧
    alookup (handleProxiesSet [] "1A-2b-3c" (some "tcp://host:9999:/remote/x")).2
        "1A-2b-3c"
      = some ⟨"1A-2b-3c", 26, 43,
          String.mk ("/remote/x".data), some (String.mk ("tcp://host:9999".data))⟩ :=
  c10_proxy_uri_validation [] "1A-2b-3c" "tcp://host:9999:/remote/x" "ftp://zzz"
    (26, 43, 60) ("tcp://host:9999".data) ("/remote/x".data)
    (by decide) (by decide) (Or.inr (by decide)) (by decide) (by decide)
